import Mathlib

/-!
Verification of the SpiderStrategies merge-bot core against its
natural-language specification.

The JavaScript sources are shallowly embedded as pure Lean functions:

* `src/constants.js`                — the branch-name marker constants;
* `src/branch-name-utils.js`        — the branch-name codec
  (`extractPRNumber`, `extractPRFromMergeForward`,
  `extractPRFromMergeConflicts`, `extractTargetFromMergeForward`);
* `src/find-clean-merge-ref.js`     — the safe-advancement calculator
  (`buildConflictPatterns`, `isRelevantConflict`,
  `determineCleanMergePoint`, `findValidAncestor`, `findCleanMergeRef`);
* `src/automerger.js` (`AutoMerger`) — the merge-chain executor, modelled as
  a state-transition function that also records the trace of external git /
  GitHub effects it performs;
* `src/branch-maintainer.js` (`BranchMaintainer`) — the branch lifecycle
  maintainer; `advanceBranchHereFromMergeForward` is modelled as the list of
  git commands it runs, interpreted over a small commit-DAG model of git;
* `src/merge-bot.js`                — the status outputs of the top-level run.

Strings are modelled by Lean `String` / `List Char`.  The JavaScript regexes
involved all have the shape `literal ++ \d+ ++ literal`; for such patterns a
greedy match is forced (the character after the digit run in each pattern is
never a digit), so each regex test is embedded as the equivalent explicit
scan over character lists.  Pattern strings built by `buildConflictPatterns`
are always `merge-conflicts-\d+-<src>-to-<tgt>`; they are represented by the
pair `(src, tgt)` and treated literally (the normalized branch names contain
no regex metacharacters).
-/

/-! ## String helpers (JavaScript string primitives) -/

/-- JavaScript `hay.includes(needle)` on character lists: some tail of `hay`
starts with `needle`. -/
def charsContains (hay needle : List Char) : Bool :=
  hay.tails.any fun t => needle.isPrefixOf t

/-- JavaScript `s.includes(sub)`. -/
def includesStr (s sub : String) : Bool :=
  charsContains s.data sub.data

/-- JavaScript `s.startsWith(p)`. -/
def jsStartsWith (s p : String) : Bool :=
  p.data.isPrefixOf s.data

/-! ## `src/constants.js` -/

/-- `UP_TO_DATE`: git merge output when no changes need to be merged. -/
def UP_TO_DATE : String := "Already up to date."

/-- `MB_BRANCH_FAILED_PREFIX` from constants.js: marker for branches created
when merge conflicts occur. -/
def mbBranchFailedMark : String := "merge-conflicts-"

/-- `MB_BRANCH_HERE_PREFIX` from constants.js: marker for branch pointers that
mark safe branching points. -/
def mbBranchHereMark : String := "branch-here-"

/-- `MB_BRANCH_FORWARD_PREFIX` from constants.js: marker for per-PR merge
chain tracking branches. -/
def mbBranchForwardMark : String := "merge-forward-pr-"

/-! ## `src/branch-name-utils.js` — the branch-name codec -/

/-- One attempt of the regex `/-pr-(\d+)-/` at the head of `t`: the literal
`-pr-`, then a nonempty digit run, then `-`.  The digit run is forced to be
the maximal one because the following pattern character `-` is not a digit
(greedy matching cannot backtrack into a digit). -/
def matchPrAt (t : List Char) : Option (List Char) :=
  if ("-pr-".data).isPrefixOf t then
    let rest := t.drop 4
    let digits := rest.takeWhile Char.isDigit
    if digits.isEmpty then none
    else if (rest.drop digits.length).head? == some '-' then some digits
    else none
  else none

/-- The JavaScript regex search `branchName.match(/-pr-(\d+)-/)`: the first
(leftmost) position where `matchPrAt` succeeds, returning the captured digit
run. -/
def firstPrMatch : List Char → Option (List Char)
  | [] => none
  | c :: cs =>
    match matchPrAt (c :: cs) with
    | some d => some d
    | none => firstPrMatch cs

/-- `extractPRNumber(branchName)`: shared helper to extract a PR number from
merge-bot branch names; `null` is modelled by `none`. -/
def extractPRNumber (branchName : String) : Option String :=
  (firstPrMatch branchName.data).map fun d => ⟨d⟩

/-- `extractPRFromMergeForward(branchName)`. -/
def extractPRFromMergeForward (branchName : String) : Option String :=
  if jsStartsWith branchName mbBranchForwardMark then
    extractPRNumber branchName
  else none

/-- `extractPRFromMergeConflicts(branchName)`. -/
def extractPRFromMergeConflicts (branchName : String) : Option String :=
  if jsStartsWith branchName mbBranchFailedMark then
    extractPRNumber branchName
  else none

/-- `extractTargetFromMergeForward(branchName)`:
`branchName.replace(new RegExp("^merge-forward-pr-\\d+-"), '')`.  The regex is
anchored; if it matches, the matched portion (marker, digit run, dash) is
removed, otherwise the name is returned unchanged.  As above the digit run is
forced to be the maximal one. -/
def extractTargetFromMergeForward (branchName : String) : String :=
  let cs := branchName.data
  if (mbBranchForwardMark.data).isPrefixOf cs then
    let rest := cs.drop mbBranchForwardMark.data.length
    let digits := rest.takeWhile Char.isDigit
    if digits.isEmpty then branchName
    else if (rest.drop digits.length).head? == some '-' then
      ⟨(rest.drop digits.length).drop 1⟩
    else branchName
  else branchName

/-- `AutoMerger.createMergeForwardBranchName(targetBranch)` from
automerger.js, with `this.prNumber` made an explicit argument:
`merge-forward-pr-{prNumber}-{targetBranch}`. -/
def createMergeForwardBranchName (prNumber targetBranch : String) : String :=
  mbBranchForwardMark ++ prNumber ++ "-" ++ targetBranch

/-! ## `src/find-clean-merge-ref.js` — the safe-advancement calculator -/

/-- The dot-to-dash normalization `branch.replace(/\./g, '-')` used for
branch names inside conflict patterns. -/
def normalizeBranch (b : String) : String :=
  ⟨b.data.map fun c => if c == '.' then '-' else c⟩

/-- One attempt of the old-format detection regex
`merge-conflicts-\d+\)` at the head of `t`: the failed-branch marker, a
nonempty digit run, then a literal `)` (greedy matching is forced: `)` is
not a digit). -/
def legacyConflictAt (t : List Char) : Bool :=
  if (mbBranchFailedMark.data).isPrefixOf t then
    let rest := t.drop mbBranchFailedMark.data.length
    let digits := rest.takeWhile Char.isDigit
    !digits.isEmpty && (rest.drop digits.length).head? == some ')'
  else false

/-- `new RegExp("merge-conflicts-\\d+\\)").test(line)`: the old-format
(unencoded) conflict-branch detection performed by `isRelevantConflict`. -/
def matchesLegacyConflict (line : String) : Bool :=
  line.data.tails.any legacyConflictAt

/-- One attempt of a structured conflict pattern
`merge-conflicts-\d+-<src>-to-<tgt>` at the head of `t` (greedy matching is
forced: the `-` after the digit run is not a digit). -/
def conflictPatternAt (src tgt : List Char) (t : List Char) : Bool :=
  if (mbBranchFailedMark.data).isPrefixOf t then
    let rest := t.drop mbBranchFailedMark.data.length
    let digits := rest.takeWhile Char.isDigit
    !digits.isEmpty &&
      (('-' :: src) ++ "-to-".data ++ tgt).isPrefixOf (rest.drop digits.length)
  else false

/-- `new RegExp(pattern).test(line)` for a pattern string
`merge-conflicts-\d+-<src>-to-<tgt>` built by `buildConflictPatterns`
(represented by the pair `(src, tgt)`). -/
def matchesConflictPattern (src tgt line : String) : Bool :=
  line.data.tails.any (conflictPatternAt src.data tgt.data)

/-- `isRelevantConflict(line, relevantConflictPattern)` from
find-clean-merge-ref.js.  `none` models the `null` pattern (backwards
compatibility: all conflicts relevant); `some (src, tgt)` models the pattern
string `merge-conflicts-\d+-<src>-to-<tgt>`. -/
def isRelevantConflict (line : String) (pat : Option (String × String)) : Bool :=
  if !includesStr line mbBranchFailedMark then false
  else
    match pat with
    | none => true
    | some (src, tgt) =>
      if matchesLegacyConflict line then true
      else matchesConflictPattern src tgt line

/-- The inner double loop of `buildConflictPatterns`: patterns from every
intermediate branch of the chain to every branch downstream of it. -/
def interPatterns : List String → List (String × String)
  | [] => []
  | s :: rest =>
    (rest.map fun t => (normalizeBranch s, normalizeBranch t)) ++ interPatterns rest

/-- `buildConflictPatterns(normalizedBranch, targetBranch, allBranchesInChain)`.
Each pattern string `merge-conflicts-\d+-<src>-to-<tgt>` is represented by the
pair `(src, tgt)`.  `targetBranch = none` (or the empty string, which is falsy
in JavaScript) models the absent target branch. -/
def buildConflictPatterns (normalizedBranch : String) (targetBranch : Option String)
    (allBranchesInChain : List String) : List (String × String) :=
  if !allBranchesInChain.isEmpty then
    (allBranchesInChain.map fun d => (normalizedBranch, normalizeBranch d)) ++
      interPatterns allBranchesInChain
  else
    match targetBranch with
    | some t => if t == "" then [] else [(normalizedBranch, normalizeBranch t)]
    | none => []

/-- The predicate applied to each history line by `findCleanMergeRef`'s
`findIndex` callback: with no patterns, any merge-conflicts branch is
relevant (backwards compatibility); otherwise some pattern must match. -/
def relevantLine (pats : List (String × String)) (line : String) : Bool :=
  if pats.isEmpty then isRelevantConflict line none
  else pats.any fun p => isRelevantConflict line (some p)

/-- `commit.split(' ')[0]`: the commit hash at the start of a
`git log --pretty=format:"%H %d"` line. -/
def firstToken (line : String) : String :=
  ⟨line.data.takeWhile fun c => !(c == ' ')⟩

/-- `findValidAncestor(action, commits, branch)`: pops candidate commits from
the END of the list until one satisfies the ancestor test
(`git merge-base --is-ancestor origin/branch-here-<branch> <candidate>`,
abstracted as the oracle `isAnc`); `undefined` is modelled by `none`. -/
def findValidAncestorRev (isAnc : String → Bool) : List String → Option String
  | [] => none
  | c :: rest => if isAnc c then some c else findValidAncestorRev isAnc rest

/-- `findValidAncestor` proper: popping from the end of `commits` is searching
the reversed list front-to-back. -/
def findValidAncestor (isAnc : String → Bool) (commits : List String) : Option String :=
  findValidAncestorRev isAnc commits.reverse

/-- `determineCleanMergePoint(action, branch, reversedHistory, conflictIdx)`.
`conflictIdx = none` models JavaScript's `-1` (no conflict found). -/
def determineCleanMergePoint (branch : String) (reversedHistory : List String)
    (conflictIdx : Option Nat) (isAnc : String → Bool) : Option String :=
  match conflictIdx with
  | none => some ("origin/" ++ branch)
  | some i =>
    if i < 2 then none
    else findValidAncestor isAnc ((reversedHistory.take i).map firstToken)

/-- `findCleanMergeRef(action, branch, targetBranch, allBranchesInChain)`.
The `git log` output is the input list `history` (newest first, as git
prints it); the ancestor test is the oracle `isAnc`. -/
def findCleanMergeRef (branch : String) (targetBranch : Option String)
    (allBranchesInChain : List String) (history : List String)
    (isAnc : String → Bool) : Option String :=
  let normalizedBranch := normalizeBranch branch
  let pats := buildConflictPatterns normalizedBranch targetBranch allBranchesInChain
  let reversedHistory := history.reverse
  let conflictIdx := reversedHistory.findIdx? (relevantLine pats)
  determineCleanMergePoint branch reversedHistory conflictIdx isAnc

/-! ## `src/automerger.js` — the merge-chain executor (`AutoMerger`)

The executor is modelled as a pure state-transition function.  The external
world (git, the GitHub API) is abstracted:

* the outcome of the `git merge` at each hop is an input
  (`HopEnv.mergeResult`): `Except.ok output` when the merge command succeeds
  with the given stdout, `Except.error msg` when it throws (the code's
  `catch` block); a failure of the preceding `git pull` lands in the same
  `catch` and is covered by the same case;
* the output of `git diff --name-only --diff-filter=U` inside
  `handleConflicts` is the input `HopEnv.conflictsOut`;
* the commit sha produced by a merge commit (`git rev-parse HEAD`) and the
  number/url of a freshly created issue are the inputs `HopEnv.newHeadSha`,
  `HopEnv.newIssueNumber` and `HopEnv.issueUrl`;
* every external command the executor issues is recorded in an effect trace
  (`AMEffect`) so that theorems can speak about which commands ran. -/

/-- `AutoMerger.createMergeConflictsBranchName(issueNumber, sourceBranch,
targetBranch)`:
`merge-conflicts-{issueNumber}-pr-{prNumber}-{sourceBranch}-to-{targetBranch}`. -/
def createMergeConflictsBranchName (prNumber : String) (issueNumber : Nat)
    (sourceBranch targetBranch : String) : String :=
  mbBranchFailedMark ++ toString issueNumber ++ "-pr-" ++ prNumber ++ "-" ++
    sourceBranch ++ "-to-" ++ targetBranch

/-- The fields of the `AutoMerger` instance that stay fixed during a run. -/
structure AMCtx where
  prNumber : String
  prBranch : String
  baseBranch : String
  prCommitSha : String
  prAuthor : String
  terminalBranch : String
  repoUrl : String
  actionUrl : String
deriving Repr, DecidableEq

/-- The mutable fields of the `AutoMerger` instance that the merge loop
reads and writes. -/
structure AMState where
  lastSuccessfulMergeRef : String
  lastSuccessfulBranch : String
  conflictBranch : Option String
  issueUrl : Option String
deriving Repr, DecidableEq

/-- `AutoMerger.initializeState()` (the part that initializes the merge
chain tracking): tracking starts at the PR commit and base branch. -/
def initializeState (ctx : AMCtx) : AMState :=
  { lastSuccessfulMergeRef := ctx.prCommitSha
    lastSuccessfulBranch := ctx.baseBranch
    conflictBranch := none
    issueUrl := none }

/-- The behavior of the external world at one hop. -/
structure HopEnv where
  mergeResult : Except String String
  conflictsOut : String
  newIssueNumber : Nat
  issueUrl : String
  newHeadSha : String

/-- External commands issued by the executor, as recorded in the trace. -/
inductive AMEffect where
  | createBranch (name startPoint : String)
  | push (args : String)
  | checkout (ref : String)
  | pull
  | gitMerge (ref opts : String)
  | gitCommit (msg : String)
  | resetHard (branch : String)
  | createIssue (title : String)
  | resolveIssues
  | deleteBranch (name : String)
deriving Repr, DecidableEq

/-- `AutoMerger.getBranchHereRef(branch)`: the terminal branch has no
branch-here pointer, every other branch uses `branch-here-{branch}`. -/
def getBranchHereRef (terminalBranch branch : String) : String :=
  if branch == terminalBranch then branch else mbBranchHereMark ++ branch

/-- `AutoMerger.getRemainingMergeTargets(startBranch)` uses JavaScript
`Array.prototype.indexOf`: the index of the first occurrence, `none` for
`-1`. -/
def jsIndexOf : List String → String → Option Nat
  | [], _ => none
  | x :: xs, y => if x == y then some 0 else (jsIndexOf xs y).map (· + 1)

/-- `AutoMerger.getRemainingMergeTargets(startBranch)`: everything after the
first occurrence of `startBranch` in `mergeTargets`, or all of
`mergeTargets` when it does not occur. -/
def getRemainingMergeTargets (mergeTargets : List String) (startBranch : String) :
    List String :=
  match jsIndexOf mergeTargets startBranch with
  | none => mergeTargets
  | some i => mergeTargets.drop (i + 1)

/-- `AutoMerger.isMergeForwardPR()`: the PR's base branch is a merge-forward
branch. -/
def isMergeForwardPR (baseBranch : String) : Bool :=
  jsStartsWith baseBranch mbBranchForwardMark

/-- The target list `AutoMerger.runMerges()` passes to `executeMerges`:
resume after the branch encoded in the merge-forward base, or the whole
`config.mergeTargets` list for a normal PR. -/
def runMergesTargets (mergeTargets : List String) (baseBranch : String) :
    List String :=
  if isMergeForwardPR baseBranch then
    getRemainingMergeTargets mergeTargets (extractTargetFromMergeForward baseBranch)
  else mergeTargets

/-- The commit message built inside `AutoMerger.merge`. -/
def mergeCommitMessage (ctx : AMCtx) (st : AMState) (branch : String) : String :=
  "auto-merge of " ++ st.lastSuccessfulMergeRef ++ " into `" ++ branch ++
    "` from `" ++ ctx.prBranch ++ "` triggered by (#" ++ ctx.prNumber ++
    ") on `" ++ ctx.baseBranch ++ "`"

/-- The issue title built inside `AutoMerger.createIssue` (the optional
`issueNumber` part of the title is dropped: it does not affect any claim). -/
def conflictIssueTitle (ctx : AMCtx) (branch : String) : String :=
  "Merge (" ++ ctx.prCommitSha.take 9 ++ ") into " ++ branch

/-- `AutoMerger.handleConflicts(branch)`: run
`git diff --name-only --diff-filter=U`; when it reports conflicted files,
record the conflict branch, create the tracking issue, reset the work tree,
create and push the encoded merge-conflicts branch and resolve stale issues.
When it reports nothing (the merge failed for some other reason), do nothing
at all — the state is unchanged and no command runs. -/
def handleConflicts (ctx : AMCtx) (st : AMState) (env : HopEnv) (branch : String) :
    AMState × List AMEffect :=
  if 0 < env.conflictsOut.length then
    let encodedBranchName := createMergeConflictsBranchName ctx.prNumber
      env.newIssueNumber st.lastSuccessfulBranch branch
    ({ st with conflictBranch := some branch, issueUrl := some env.issueUrl },
      [AMEffect.createIssue (conflictIssueTitle ctx branch),
       AMEffect.resetHard branch,
       AMEffect.createBranch encodedBranchName (getBranchHereRef ctx.terminalBranch branch),
       AMEffect.push ("origin " ++ encodedBranchName),
       AMEffect.resolveIssues])
  else (st, [])

/-- The default `options` parameter of `AutoMerger.merge`:
`--no-commit --no-ff` ("always produce changes to commit, never a silent
fast-forward"). -/
def mergeDefaultOptions : String := "--no-commit --no-ff"

/-- `AutoMerger.merge({branch, options})`: create/force-push the
merge-forward branch at the target's branch-here pointer, check it out, pull
and merge `lastSuccessfulMergeRef` into it.  On a thrown merge, delegate to
`handleConflicts` and return `false`.  On success, if the output contains
`UP_TO_DATE` nothing is committed and the state is unchanged; otherwise the
merge commit is created, tracking advances to it, and the merge-forward
branch is force-pushed.  Returns the updated state, the boolean the method
returns, and the effect trace. -/
def mergeHop (ctx : AMCtx) (st : AMState) (env : HopEnv) (branch : String)
    (options : String) : AMState × Bool × List AMEffect :=
  let currentMergeForward := createMergeForwardBranchName ctx.prNumber branch
  let targetRef := getBranchHereRef ctx.terminalBranch branch
  let pre : List AMEffect :=
    [AMEffect.createBranch currentMergeForward ("origin/" ++ targetRef),
     AMEffect.push ("--force origin " ++ currentMergeForward),
     AMEffect.checkout currentMergeForward,
     AMEffect.pull,
     AMEffect.gitMerge st.lastSuccessfulMergeRef options]
  match env.mergeResult with
  | Except.error _ =>
    ((handleConflicts ctx st env branch).1, false,
      pre ++ (handleConflicts ctx st env branch).2)
  | Except.ok mergeResult =>
    if includesStr mergeResult UP_TO_DATE then (st, true, pre)
    else
      ({ st with lastSuccessfulMergeRef := env.newHeadSha,
                 lastSuccessfulBranch := branch },
        true,
        pre ++ [AMEffect.gitCommit (mergeCommitMessage ctx st branch),
                AMEffect.push ("--force origin " ++ currentMergeForward)])

/-- The loop body of `AutoMerger.executeMerges`: walk the targets in order,
checking each branch out and calling `merge` (with its default options);
stop at the first `false`.  Returns the final state, whether every target
was merged (`allMergesPassed`), the effect trace, and the list of branches
successfully merged into (`mergedBranches`). -/
def executeMergesGo (ctx : AMCtx) (envf : String → HopEnv) :
    AMState → List String → AMState × Bool × List AMEffect × List String
  | st, [] => (st, true, [], [])
  | st, branch :: rest =>
    let m := mergeHop ctx st (envf branch) branch mergeDefaultOptions
    if m.2.1 then
      let r := executeMergesGo ctx envf m.1 rest
      (r.1, r.2.1, AMEffect.checkout branch :: m.2.2 ++ r.2.2.1, branch :: r.2.2.2)
    else
      (m.1, false, AMEffect.checkout branch :: m.2.2, [])

/-- The result of `AutoMerger.executeMerges`. -/
structure ExecResult where
  state : AMState
  allMergesPassed : Bool
  effects : List AMEffect
  mergedBranches : List String
  statusMessage : Option String
deriving Repr

/-- The Slack status message built by
`AutoMerger.generateMergeConflictNotice`. -/
def mergeConflictNotice (ctx : AMCtx) (issueUrl : String) : String :=
  "<" ++ ctx.repoUrl ++ "/issues/" ++ ctx.prNumber ++ "|PR #" ++ ctx.prNumber ++
    "> <" ++ issueUrl ++ "|Issue> <" ++ ctx.actionUrl ++ "|Action Run>"

/-- `AutoMerger.executeMerges(mergeTargets)`: run the merge loop; when every
merge passed, delete the PR branch (the `updateTargetBranches` phase is not
needed by any claim and is not modelled); when the loop stopped and a
conflict branch was recorded, generate the merge-conflict notice. -/
def executeMerges (ctx : AMCtx) (envf : String → HopEnv) (st : AMState)
    (mergeTargets : List String) : ExecResult :=
  let r := executeMergesGo ctx envf st mergeTargets
  if r.2.1 then
    { state := r.1, allMergesPassed := true,
      effects := r.2.2.1 ++ [AMEffect.deleteBranch ctx.prBranch],
      mergedBranches := r.2.2.2, statusMessage := none }
  else
    { state := r.1, allMergesPassed := false, effects := r.2.2.1,
      mergedBranches := r.2.2.2,
      statusMessage := r.1.conflictBranch.bind fun _ =>
        some (mergeConflictNotice ctx (r.1.issueUrl.getD "")) }

/-- `AutoMerger.runMerges()` composed with `executeMerges`: the resumption
logic picks the target list, then the merge loop runs. -/
def runMerges (ctx : AMCtx) (envf : String → HopEnv) (st : AMState)
    (mergeTargets : List String) : ExecResult :=
  executeMerges ctx envf st (runMergesTargets mergeTargets ctx.baseBranch)

/-! ## `src/merge-bot.js` — status outputs of the top-level run -/

/-- `setFinalStatus(automerger)`: the orchestrator always sets the `status`
output to `success` after both phases complete (merge conflicts count as
success), and the `status-message` output to the automerger's status message
or a link to the action run. -/
def setFinalStatus (actionUrl : String) (statusMessage : Option String) :
    String × String :=
  ("success", statusMessage.getD ("<" ++ actionUrl ++ "|Action Run>"))

/-- The `catch` block of `run()` in merge-bot.js: on a thrown error the
`status` output is set to `error` and the message carries the error text. -/
def runCatchStatus (actionUrl errMsg : String) : String × String :=
  ("error", "Merge bot error: " ++ errMsg ++ " <" ++ actionUrl ++ "|Action Run>")

/-- `run()` from merge-bot.js, reduced to its `status` / `status-message`
outputs: `Except.ok msg` is a run in which no exception propagated to the
top (the automerger finished, possibly having quarantined a conflict, with
status message `msg`); `Except.error e` is a run in which an exception with
message `e` propagated to the top-level `catch`. -/
def mergeBotRunStatus (actionUrl : String)
    (outcome : Except String (Option String)) : String × String :=
  match outcome with
  | Except.ok statusMessage => setFinalStatus actionUrl statusMessage
  | Except.error e => runCatchStatus actionUrl e

/-! ## `src/branch-maintainer.js` — `advanceBranchHereFromMergeForward`

The method runs four git commands (checkout, pull, merge `--no-ff`, push).
They are modelled as a `GitCmd` list and interpreted over a small commit-DAG
model of the git backend: commits are numbered, each commit stores its
parent list, refs map names to commits, `merge --no-ff` always creates a
fresh commit whose parents are the current ref's tip and the merged ref's
tip, and `A` is an ancestor of `B` iff `A` is reachable from `B` through
parent links (`git merge-base --is-ancestor A B`). -/

/-- A git command issued by `advanceBranchHereFromMergeForward`. -/
inductive GitCmd where
  | checkout (ref : String)
  | pull
  | mergeNoFF (ref msg : String)
  | push (remote branch : String)
deriving Repr, DecidableEq

/-- `BranchMaintainer.denormalizeBranchName(normalized)`: the first
configured branch whose dot-to-dash normalization equals `normalized`,
falling back to `normalized` itself. -/
def denormalizeBranchName (branches : List String) (normalized : String) : String :=
  match branches.find? fun b => normalizeBranch b == normalized with
  | some b => b
  | none => normalized

/-- The fixed merge commit message used by
`advanceBranchHereFromMergeForward`. -/
def advanceMessage : String := "Advance branch-here from completed merge-forward"

/-- `BranchMaintainer.advanceBranchHereFromMergeForward(mergeForwardBranch)`:
the target branch is decoded with the same anchored regex
`^merge-forward-pr-\d+-` as `extractTargetFromMergeForward`, denormalized
against the configured branches, the terminal branch is skipped, and
otherwise branch-here-{target} is checked out, pulled, the merge-forward
branch is merged into it with `--no-ff` and the fixed message, and it is
pushed.  (The surrounding `try`/`catch` only logs, so the command list is
the whole behavior.) -/
def advanceBranchHereCmds (branches : List String) (terminalBranch : String)
    (mergeForwardBranch : String) : List GitCmd :=
  let normalizedTarget := extractTargetFromMergeForward mergeForwardBranch
  let targetBranch := denormalizeBranchName branches normalizedTarget
  if targetBranch == terminalBranch then []
  else
    let branchHere := mbBranchHereMark ++ targetBranch
    [GitCmd.checkout branchHere, GitCmd.pull,
     GitCmd.mergeNoFF ("origin/" ++ mergeForwardBranch) advanceMessage,
     GitCmd.push "origin" branchHere]

/-- The commit-DAG model of the git backend: commit ids with parent lists,
refs, a fresh-id counter and the currently checked-out ref.  Local and
origin refs are identified (the model repo is in sync with its remote; this
only strengthens the counterexample below, since even without any
concurrent pushes the invariant breaks). -/
structure GitRepo where
  parents : List (Nat × List Nat)
  refs : List (String × Nat)
  nextId : Nat
  current : String
deriving Repr

/-- Look a ref up in the repo. -/
def lookupRef (repo : GitRepo) (name : String) : Option Nat :=
  (repo.refs.find? fun r => r.1 == name).map fun r => r.2

/-- Point a ref at a commit (update-or-add in the association list). -/
def setRef (refs : List (String × Nat)) (name : String) (v : Nat) :
    List (String × Nat) :=
  match refs with
  | [] => [(name, v)]
  | r :: rest => if r.1 == name then (name, v) :: rest else r :: setRef rest name v

/-- The parent list of a commit. -/
def parentsOf (ps : List (Nat × List Nat)) (c : Nat) : List Nat :=
  match ps.find? fun p => p.1 == c with
  | some p => p.2
  | none => []

/-- Fuel-bounded reachability through parent links: `a` is reachable from
`b` (i.e. `a` is `b` or an ancestor of `b`). -/
def reachableFuel (ps : List (Nat × List Nat)) : Nat → Nat → Nat → Bool
  | 0, a, b => a == b
  | fuel + 1, a, b => a == b || (parentsOf ps b).any fun p => reachableFuel ps fuel a p

/-- `git merge-base --is-ancestor a b` in the model: the commit of ref `a`
is reachable from the commit of ref `b`.  `nextId` bounds the DAG depth, so
it is enough fuel. -/
def isAncestorRef (repo : GitRepo) (a b : String) : Bool :=
  match lookupRef repo a, lookupRef repo b with
  | some x, some y => reachableFuel repo.parents repo.nextId x y
  | _, _ => false

/-- One git command, interpreted over the commit-DAG model.  `checkout`
moves HEAD; `pull` and `push` are no-ops (local and origin refs are
identified); `merge --no-ff` always creates a fresh commit whose parents are
the current branch's tip and the merged ref's tip, and moves the current
branch to it. -/
def runGitCmd (repo : GitRepo) : GitCmd → GitRepo
  | GitCmd.checkout ref => { repo with current := ref }
  | GitCmd.pull => repo
  | GitCmd.mergeNoFF ref _msg =>
    match lookupRef repo repo.current, lookupRef repo ref with
    | some cur, some other =>
      { repo with
        parents := (repo.nextId, [cur, other]) :: repo.parents,
        refs := setRef repo.refs repo.current repo.nextId,
        nextId := repo.nextId + 1 }
    | _, _ => repo
  | GitCmd.push _ _ => repo

/-- Run a command list over the model. -/
def runGitCmds (repo : GitRepo) (cmds : List GitCmd) : GitRepo :=
  cmds.foldl runGitCmd repo

/-! ## Supporting lemmas -/

theorem takeWhile_digits_append (ds rest : List Char) (h : ∀ c ∈ ds, c.isDigit = true) :
    (ds ++ '-' :: rest).takeWhile Char.isDigit = ds := by
  rw [List.takeWhile_append_of_pos h]
  simp [List.takeWhile_cons, show Char.isDigit '-' = false from by decide]

theorem isPrefixOf_append_self (l rest : List Char) : l.isPrefixOf (l ++ rest) = true := by
  simp [List.isPrefixOf_iff_prefix]

theorem createName_data (pr target : String) :
    (createMergeForwardBranchName pr target).data =
      mbBranchForwardMark.data ++ (pr.data ++ '-' :: target.data) := by
  simp [createMergeForwardBranchName, String.data_append, List.append_assoc]

theorem data_ne_nil_of_ne_empty (s : String) (h : s ≠ "") : s.data ≠ [] := by
  intro hd
  apply h
  cases s
  simp_all [String.ext_iff]

theorem isEmpty_false_of_ne {α : Type} (l : List α) (h : l ≠ []) : l.isEmpty = false := by
  cases l with
  | nil => exact absurd rfl h
  | cons a as => rfl

theorem extractTarget_create (pr target : String) (h1 : pr ≠ "")
    (h2 : ∀ c ∈ pr.data, c.isDigit = true) :
    extractTargetFromMergeForward (createMergeForwardBranchName pr target) = target := by
  have hd : pr.data ≠ [] := data_ne_nil_of_ne_empty pr h1
  unfold extractTargetFromMergeForward
  simp only [createName_data, isPrefixOf_append_self, List.drop_left,
    takeWhile_digits_append pr.data target.data h2, if_true]
  simp [List.isEmpty_iff, hd, List.drop_left]

theorem matchPrAt_cons_ne (c : Char) (cs : List Char) (h : ('-' == c) = false) :
    matchPrAt (c :: cs) = none := by
  unfold matchPrAt
  simp [show "-pr-".data = ['-', 'p', 'r', '-'] from rfl, List.isPrefixOf, h]

theorem matchPrAt_dash_ne (c : Char) (cs : List Char) (h : ('p' == c) = false) :
    matchPrAt ('-' :: c :: cs) = none := by
  unfold matchPrAt
  simp [show "-pr-".data = ['-', 'p', 'r', '-'] from rfl, List.isPrefixOf, h]

theorem firstPrMatch_cons_none (c : Char) (cs : List Char)
    (h : matchPrAt (c :: cs) = none) : firstPrMatch (c :: cs) = firstPrMatch cs := by
  conv_lhs => unfold firstPrMatch
  rw [h]

theorem matchPrAt_hit (ds rest : List Char) (h1 : ds ≠ [])
    (h2 : ∀ c ∈ ds, c.isDigit = true) :
    matchPrAt ('-' :: 'p' :: 'r' :: '-' :: (ds ++ '-' :: rest)) = some ds := by
  unfold matchPrAt
  rw [show (("-pr-".data).isPrefixOf ('-' :: 'p' :: 'r' :: '-' :: (ds ++ '-' :: rest))) = true
    from by simp [List.isPrefixOf]]
  simp only [if_true]
  rw [show List.drop 4 ('-' :: 'p' :: 'r' :: '-' :: (ds ++ '-' :: rest)) = ds ++ '-' :: rest
    from rfl]
  rw [takeWhile_digits_append ds rest h2, isEmpty_false_of_ne ds h1]
  simp [List.drop_left]

theorem firstPrMatch_create (pr target : String) (h1 : pr.data ≠ [])
    (h2 : ∀ c ∈ pr.data, c.isDigit = true) :
    firstPrMatch (mbBranchForwardMark.data ++ (pr.data ++ '-' :: target.data)) =
      some pr.data := by
  show firstPrMatch ('m' :: 'e' :: 'r' :: 'g' :: 'e' :: '-' :: 'f' :: 'o' :: 'r' :: 'w' ::
    'a' :: 'r' :: 'd' :: '-' :: 'p' :: 'r' :: '-' :: (pr.data ++ '-' :: target.data)) =
      some pr.data
  rw [firstPrMatch_cons_none _ _ (matchPrAt_cons_ne _ _ (by decide))]
  rw [firstPrMatch_cons_none _ _ (matchPrAt_cons_ne _ _ (by decide))]
  rw [firstPrMatch_cons_none _ _ (matchPrAt_cons_ne _ _ (by decide))]
  rw [firstPrMatch_cons_none _ _ (matchPrAt_cons_ne _ _ (by decide))]
  rw [firstPrMatch_cons_none _ _ (matchPrAt_cons_ne _ _ (by decide))]
  rw [firstPrMatch_cons_none _ _ (matchPrAt_dash_ne _ _ (by decide))]
  rw [firstPrMatch_cons_none _ _ (matchPrAt_cons_ne _ _ (by decide))]
  rw [firstPrMatch_cons_none _ _ (matchPrAt_cons_ne _ _ (by decide))]
  rw [firstPrMatch_cons_none _ _ (matchPrAt_cons_ne _ _ (by decide))]
  rw [firstPrMatch_cons_none _ _ (matchPrAt_cons_ne _ _ (by decide))]
  rw [firstPrMatch_cons_none _ _ (matchPrAt_cons_ne _ _ (by decide))]
  rw [firstPrMatch_cons_none _ _ (matchPrAt_cons_ne _ _ (by decide))]
  rw [firstPrMatch_cons_none _ _ (matchPrAt_cons_ne _ _ (by decide))]
  unfold firstPrMatch
  rw [matchPrAt_hit pr.data target.data h1 h2]

theorem extractPR_create (pr target : String) (h1 : pr ≠ "")
    (h2 : ∀ c ∈ pr.data, c.isDigit = true) :
    extractPRFromMergeForward (createMergeForwardBranchName pr target) = some pr := by
  unfold extractPRFromMergeForward
  rw [show jsStartsWith (createMergeForwardBranchName pr target) mbBranchForwardMark = true
    from by unfold jsStartsWith; rw [createName_data]; exact isPrefixOf_append_self _ _]
  simp only [if_true]
  unfold extractPRNumber
  rw [createName_data, firstPrMatch_create pr target (data_ne_nil_of_ne_empty pr h1) h2]
  rfl

theorem jsIndexOf_not_mem (l : List String) (x : String) (h : x ∉ l) :
    jsIndexOf l x = none := by
  induction l with
  | nil => rfl
  | cons a as ih =>
    have hax : (a == x) = false := by
      simp only [beq_eq_false_iff_ne, ne_eq]
      intro e
      exact h (by simp [e])
    have hx : x ∉ as := fun hm => h (List.mem_cons_of_mem a hm)
    simp [jsIndexOf, hax, ih hx]

theorem jsIndexOf_append_cons (pre post : List String) (x : String) (h : x ∉ pre) :
    jsIndexOf (pre ++ x :: post) x = some pre.length := by
  induction pre with
  | nil => simp [jsIndexOf]
  | cons a as ih =>
    have hax : (a == x) = false := by
      simp only [beq_eq_false_iff_ne, ne_eq]
      intro e
      exact h (by simp [e])
    have hx : x ∉ as := fun hm => h (List.mem_cons_of_mem a hm)
    simp [jsIndexOf, hax, ih hx]

theorem getRemaining_after (pre post : List String) (x : String) (h : x ∉ pre) :
    getRemainingMergeTargets (pre ++ x :: post) x = post := by
  unfold getRemainingMergeTargets
  rw [jsIndexOf_append_cons pre post x h]
  show List.drop (pre.length + 1) (pre ++ x :: post) = post
  rw [show pre.length + 1 = (pre ++ [x]).length from by simp]
  rw [show pre ++ x :: post = (pre ++ [x]) ++ post from by simp]
  exact List.drop_left (pre ++ [x]) post

theorem handleConflicts_no_gitMerge (ctx : AMCtx) (st : AMState) (env : HopEnv)
    (branch r o : String) :
    AMEffect.gitMerge r o ∉ (handleConflicts ctx st env branch).2 := by
  unfold handleConflicts
  split
  · simp
  · simp

theorem mergeHop_gitMerge_opts (ctx : AMCtx) (st : AMState) (env : HopEnv)
    (branch opts r o : String)
    (h : AMEffect.gitMerge r o ∈ (mergeHop ctx st env branch opts).2.2) : o = opts := by
  unfold mergeHop at h
  cases henv : env.mergeResult with
  | error e =>
    rw [henv] at h
    simp at h
    rcases h with h | h
    · exact h.2
    · exact absurd h (handleConflicts_no_gitMerge ctx st env branch r o)
  | ok out =>
    rw [henv] at h
    cases hu : includesStr out UP_TO_DATE with
    | true =>
      simp [hu] at h
      exact h.2
    | false =>
      simp [hu] at h
      exact h.2

theorem executeMergesGo_gitMerge_opts (ctx : AMCtx) (envf : String → HopEnv)
    (targets : List String) :
    ∀ (st : AMState) (r o : String),
      AMEffect.gitMerge r o ∈ (executeMergesGo ctx envf st targets).2.2.1 →
        o = mergeDefaultOptions := by
  induction targets with
  | nil =>
    intro st r o h
    simp [executeMergesGo] at h
  | cons b rest ih =>
    intro st r o h
    unfold executeMergesGo at h
    simp only [] at h
    split at h
    · simp at h
      rcases h with h | h
      · exact mergeHop_gitMerge_opts ctx st (envf b) b mergeDefaultOptions r o h
      · exact ih _ r o h
    · simp at h
      exact mergeHop_gitMerge_opts ctx st (envf b) b mergeDefaultOptions r o h

theorem executeMergesGo_merged_sub (ctx : AMCtx) (envf : String → HopEnv)
    (targets : List String) :
    ∀ (st : AMState) (b : String),
      b ∈ (executeMergesGo ctx envf st targets).2.2.2 → b ∈ targets := by
  induction targets with
  | nil =>
    intro st b h
    simp [executeMergesGo] at h
  | cons t rest ih =>
    intro st b h
    unfold executeMergesGo at h
    simp only [] at h
    split at h
    · simp at h
      rcases h with h | h
      · simp [h]
      · exact List.mem_cons_of_mem t (ih _ b h)
    · simp at h

theorem mergeHop_up_to_date (ctx : AMCtx) (st : AMState) (env : HopEnv)
    (branch opts out : String)
    (h1 : env.mergeResult = Except.ok out) (h2 : includesStr out UP_TO_DATE = true) :
    (mergeHop ctx st env branch opts).1 = st ∧
    (mergeHop ctx st env branch opts).2.1 = true ∧
    ∀ msg, AMEffect.gitCommit msg ∉ (mergeHop ctx st env branch opts).2.2 := by
  unfold mergeHop
  rw [h1]
  simp [h2]

theorem executeMergesGo_checkout_head (ctx : AMCtx) (envf : String → HopEnv)
    (st : AMState) (b : String) (rest : List String) :
    AMEffect.checkout b ∈ (executeMergesGo ctx envf st (b :: rest)).2.2.1 := by
  unfold executeMergesGo
  simp only []
  split
  · simp
  · simp

theorem executeMerges_effects_sup (ctx : AMCtx) (envf : String → HopEnv)
    (st : AMState) (targets : List String) (e : AMEffect)
    (h : e ∈ (executeMergesGo ctx envf st targets).2.2.1) :
    e ∈ (executeMerges ctx envf st targets).effects := by
  unfold executeMerges
  simp only []
  split
  · simp [h]
  · simp [h]

theorem executeMerges_continues (ctx : AMCtx) (envf : String → HopEnv)
    (st : AMState) (b1 b2 : String) (rest : List String) (out : String)
    (h1 : (envf b1).mergeResult = Except.ok out)
    (h2 : includesStr out UP_TO_DATE = true) :
    AMEffect.checkout b2 ∈ (executeMerges ctx envf st (b1 :: b2 :: rest)).effects := by
  have hm := mergeHop_up_to_date ctx st (envf b1) b1 mergeDefaultOptions out h1 h2
  apply executeMerges_effects_sup
  unfold executeMergesGo
  simp only []
  rw [if_pos hm.2.1]
  refine List.mem_cons_of_mem _ (List.mem_append_right _ ?_)
  exact executeMergesGo_checkout_head ctx envf _ b2 rest

theorem executeMerges_gitMerge_opts (ctx : AMCtx) (envf : String → HopEnv)
    (st : AMState) (targets : List String) (r o : String)
    (h : AMEffect.gitMerge r o ∈ (executeMerges ctx envf st targets).effects) :
    o = mergeDefaultOptions := by
  unfold executeMerges at h
  simp only [] at h
  split at h
  · have h2 : AMEffect.gitMerge r o ∈ (executeMergesGo ctx envf st targets).2.2.1 ∨
        AMEffect.gitMerge r o ∈ [AMEffect.deleteBranch ctx.prBranch] := by
      simpa [List.mem_append] using h
    rcases h2 with h2 | h2
    · exact executeMergesGo_gitMerge_opts ctx envf targets st r o h2
    · simp at h2
  · exact executeMergesGo_gitMerge_opts ctx envf targets st r o h

theorem executeMerges_merged_sub (ctx : AMCtx) (envf : String → HopEnv)
    (st : AMState) (targets : List String) (b : String)
    (h : b ∈ (executeMerges ctx envf st targets).mergedBranches) : b ∈ targets := by
  unfold executeMerges at h
  simp only [] at h
  split at h
  · exact executeMergesGo_merged_sub ctx envf targets st b h
  · exact executeMergesGo_merged_sub ctx envf targets st b h

theorem findValidAncestorRev_mem (isAnc : String → Bool) :
    ∀ (l : List String) (c : String), findValidAncestorRev isAnc l = some c → c ∈ l := by
  intro l
  induction l with
  | nil =>
    intro c h
    simp [findValidAncestorRev] at h
  | cons a as ih =>
    intro c h
    unfold findValidAncestorRev at h
    split at h
    · injection h with h
      simp [h]
    · exact List.mem_cons_of_mem a (ih c h)

theorem findValidAncestor_mem (isAnc : String → Bool) (commits : List String)
    (c : String) (h : findValidAncestor isAnc commits = some c) : c ∈ commits := by
  unfold findValidAncestor at h
  exact List.mem_reverse.mp (findValidAncestorRev_mem isAnc commits.reverse c h)

theorem legacy_implies_includes (line : String) (h : matchesLegacyConflict line = true) :
    includesStr line mbBranchFailedMark = true := by
  unfold matchesLegacyConflict at h
  unfold includesStr charsContains
  rw [List.any_eq_true] at h ⊢
  obtain ⟨t, ht, hleg⟩ := h
  refine ⟨t, ht, ?_⟩
  unfold legacyConflictAt at hleg
  split at hleg
  · assumption
  · exact absurd hleg (by simp)

theorem extractTarget_total (name : String) :
    extractTargetFromMergeForward name = name ∨
    ∃ pr rest : String, pr ≠ "" ∧ (∀ c ∈ pr.data, c.isDigit = true) ∧
      name = createMergeForwardBranchName pr rest ∧
      extractTargetFromMergeForward name = rest := by
  unfold extractTargetFromMergeForward
  by_cases hp : (mbBranchForwardMark.data).isPrefixOf name.data = true
  case neg =>
    left
    rw [if_neg hp]
  case pos =>
    rw [if_pos hp]
    by_cases he : (List.takeWhile Char.isDigit
        (List.drop mbBranchForwardMark.data.length name.data)).isEmpty = true
    case pos =>
      left
      rw [if_pos he]
    case neg =>
      rw [if_neg he]
      by_cases hh : ((List.drop (List.takeWhile Char.isDigit
            (List.drop mbBranchForwardMark.data.length name.data)).length
          (List.drop mbBranchForwardMark.data.length name.data)).head? == some '-') = true
      case neg =>
        left
        rw [if_neg hh]
      case pos =>
        rw [if_pos hh]
        right
        obtain ⟨s, hs⟩ := List.isPrefixOf_iff_prefix.mp hp
        have hdrop : List.drop mbBranchForwardMark.data.length name.data = s := by
          rw [← hs]
          exact List.drop_left _ _
        set digits := List.takeWhile Char.isDigit s with hdig
        have hsplit : s = digits ++ s.dropWhile Char.isDigit := by
          rw [hdig]
          exact (List.takeWhile_append_dropWhile Char.isDigit s).symm
        have hdrop2 : List.drop digits.length s = s.dropWhile Char.isDigit := by
          conv_lhs => rw [hsplit]
          exact List.drop_left _ _
        rw [hdrop] at he hh ⊢
        rw [← hdig] at he hh ⊢
        rw [hdrop2] at hh ⊢
        cases hdw : s.dropWhile Char.isDigit with
        | nil =>
          rw [hdw] at hh
          simp at hh
        | cons c tail =>
          rw [hdw] at hh
          have hc : c = '-' := by
            simp [List.head?] at hh
            exact hh
          refine ⟨⟨digits⟩, ⟨tail⟩, ?_, ?_, ?_, ?_⟩
          · intro hemp
            have hn : digits = [] := congrArg String.data hemp
            rw [hn] at he
            exact he rfl
          · intro ch hch
            exact List.mem_takeWhile_imp hch
          · apply String.ext
            rw [createName_data]
            show name.data = mbBranchForwardMark.data ++ (digits ++ '-' :: tail)
            rw [← hs, hsplit, hdw, hc]
          · rfl

/-! ## Claims -/

/-- **C1** — Safe-advancement is maximally conservative.  Over the oldest-first
commit list (`history.reverse`): if no line is a relevant quarantine marker,
`findCleanMergeRef` returns `origin/<branch>`; if the first (oldest) relevant
marker sits at index 0 or 1, it returns `null`; otherwise the cutoff is the
index of that oldest relevant marker, the result is searched only among the
commits strictly before the cutoff (so it is never at or after any relevant
marker), the cutoff line itself is relevant while every line before it is
not, and a line carrying only a structured marker whose encoded source/target
matches none of the patterns built for the branch/chain (and that is not
flagged as a legacy marker) is ignored. -/
theorem safe_advancement_conservative (branch : String) (targetBranch : Option String)
    (chain history : List String) (isAnc : String → Bool) :
    ((∀ line ∈ history,
        relevantLine (buildConflictPatterns (normalizeBranch branch) targetBranch chain)
          line = false) →
      findCleanMergeRef branch targetBranch chain history isAnc =
        some ("origin/" ++ branch)) ∧
    (∀ i, history.reverse.findIdx?
        (relevantLine (buildConflictPatterns (normalizeBranch branch) targetBranch chain)) =
          some i →
      (i < 2 → findCleanMergeRef branch targetBranch chain history isAnc = none) ∧
      (2 ≤ i →
        findCleanMergeRef branch targetBranch chain history isAnc =
          findValidAncestor isAnc ((history.reverse.take i).map firstToken) ∧
        (∀ c, findCleanMergeRef branch targetBranch chain history isAnc = some c →
          c ∈ (history.reverse.take i).map firstToken) ∧
        ∃ hi : i < history.reverse.length,
          relevantLine (buildConflictPatterns (normalizeBranch branch) targetBranch chain)
            (history.reverse.get ⟨i, hi⟩) = true ∧
          ∀ j (hj : j < i),
            relevantLine (buildConflictPatterns (normalizeBranch branch) targetBranch chain)
              (history.reverse.get ⟨j, Nat.lt_trans hj hi⟩) = false)) ∧
    (buildConflictPatterns (normalizeBranch branch) targetBranch chain ≠ [] →
      ∀ line, includesStr line mbBranchFailedMark = true →
      matchesLegacyConflict line = false →
      (∀ p ∈ buildConflictPatterns (normalizeBranch branch) targetBranch chain,
        matchesConflictPattern p.1 p.2 line = false) →
      relevantLine (buildConflictPatterns (normalizeBranch branch) targetBranch chain)
        line = false) := by
  refine ⟨?_, ?_, ?_⟩
  · intro hall
    have hnone : history.reverse.findIdx?
        (relevantLine (buildConflictPatterns (normalizeBranch branch) targetBranch chain)) =
          none := by
      rw [List.findIdx?_eq_none_iff]
      intro x hx
      exact hall x (List.mem_reverse.mp hx)
    show determineCleanMergePoint branch history.reverse
      (history.reverse.findIdx?
        (relevantLine (buildConflictPatterns (normalizeBranch branch) targetBranch chain)))
      isAnc = _
    rw [hnone]
    rfl
  · intro i hidx
    constructor
    · intro hlt
      show determineCleanMergePoint branch history.reverse
        (history.reverse.findIdx?
          (relevantLine (buildConflictPatterns (normalizeBranch branch) targetBranch chain)))
        isAnc = none
      rw [hidx]
      simp only [determineCleanMergePoint]
      rw [if_pos hlt]
    · intro hge
      have hres : findCleanMergeRef branch targetBranch chain history isAnc =
          findValidAncestor isAnc ((history.reverse.take i).map firstToken) := by
        show determineCleanMergePoint branch history.reverse
          (history.reverse.findIdx?
            (relevantLine
              (buildConflictPatterns (normalizeBranch branch) targetBranch chain)))
          isAnc = _
        rw [hidx]
        simp only [determineCleanMergePoint]
        rw [if_neg (Nat.not_lt.mpr hge)]
      refine ⟨hres, ?_, ?_⟩
      · intro c hc
        rw [hres] at hc
        exact findValidAncestor_mem isAnc _ c hc
      · obtain ⟨hi, hp, hprev⟩ := List.findIdx?_eq_some_iff_getElem.mp hidx
        refine ⟨hi, ?_, ?_⟩
        · rw [List.get_eq_getElem]
          exact hp
        · intro j hj
          rw [List.get_eq_getElem]
          exact Bool.eq_false_iff.mpr (hprev j hj)
  · intro hne line hinc hleg hall
    unfold relevantLine
    rw [isEmpty_false_of_ne _ hne]
    simp only [Bool.false_eq_true, if_false]
    rw [List.any_eq_false]
    intro p hp
    obtain ⟨src, tgt⟩ := p
    have hmp := hall _ hp
    unfold isRelevantConflict
    rw [hinc]
    simp [hleg, hmp]

/-- Witness for C1: a five-commit history whose oldest relevant quarantine
marker sits at index 2 of the oldest-first list; the calculator picks among
the two commits before it. -/
theorem safe_advancement_conservative_witness :
    List.findIdx? (relevantLine (buildConflictPatterns (normalizeBranch "b") none []))
      (["a x", "b x", "c (merge-conflicts-1)", "d x", "e x"].reverse) = some 2 ∧
    2 ≤ 2 ∧
    findCleanMergeRef "b" none [] ["a x", "b x", "c (merge-conflicts-1)", "d x", "e x"]
        (fun _ => true) =
      findValidAncestor (fun _ => true)
        (((["a x", "b x", "c (merge-conflicts-1)", "d x", "e x"].reverse).take 2).map
          firstToken) :=
  ⟨by decide, by decide,
    (((safe_advancement_conservative "b" none []
        ["a x", "b x", "c (merge-conflicts-1)", "d x", "e x"] (fun _ => true)).2.1
      2 (by decide)).2 (by decide)).1⟩

/-- **C6** — counterexample.  The claim says every log line containing a
quarantine ref that lacks the structured source-to-target encoding makes
`isRelevantConflict` return `true` regardless of the tested pattern.  On this
line the legacy ref `merge-conflicts-45133` is present (the line contains
the marker) but is not the last decoration, so its digits are followed by a
comma rather than `)`; the old-format detector misses it and the function
returns `false`. -/
theorem legacy_mid_decoration_not_relevant :
    includesStr "427a3532  (origin/merge-conflicts-45133, origin/dev)" mbBranchFailedMark
        = true ∧
    matchesConflictPattern "release-5-8-0" "main"
        "427a3532  (origin/merge-conflicts-45133, origin/dev)" = false ∧
    isRelevantConflict "427a3532  (origin/merge-conflicts-45133, origin/dev)"
        (some ("release-5-8-0", "main")) = false := by
  refine ⟨by decide, by decide, by decide⟩

/-- **C6** — amended.  A legacy/unknown-format quarantine ref is treated as
relevant regardless of the tested pattern exactly when the old-format
detector fires: the marker's digits are immediately followed by `)` in the
log line (the ref is the last decoration).  A legacy ref elsewhere in the
decoration list falls through to the specific merge-path pattern test. -/
theorem legacy_flagged_always_relevant (line : String) (p : String × String)
    (h : matchesLegacyConflict line = true) :
    isRelevantConflict line (some p) = true := by
  have hinc := legacy_implies_includes line h
  unfold isRelevantConflict
  rw [hinc]
  obtain ⟨src, tgt⟩ := p
  simp [h]

/-- Witness for the amended C6: a line whose legacy ref is the last
decoration is relevant for an arbitrary pattern. -/
theorem legacy_flagged_always_relevant_witness :
    matchesLegacyConflict "9f32de65  (merge-conflicts-48357)" = true ∧
    isRelevantConflict "9f32de65  (merge-conflicts-48357)"
        (some ("release-5-8-0", "main")) = true :=
  ⟨by decide,
    legacy_flagged_always_relevant "9f32de65  (merge-conflicts-48357)"
      ("release-5-8-0", "main") (by decide)⟩

/-- **C7** — the branch-name codec round-trips.  For every PR number (a
nonempty digit string, as produced by the GitHub event) and every target
branch name, decoding the encoded merge-forward name recovers both inputs
exactly, and re-encoding the decoded parts reproduces the name
(decode-then-encode is the identity on the codec's image). -/
theorem codec_round_trip (pr target : String) (h1 : pr ≠ "")
    (h2 : ∀ c ∈ pr.data, c.isDigit = true) :
    extractTargetFromMergeForward (createMergeForwardBranchName pr target) = target ∧
    extractPRFromMergeForward (createMergeForwardBranchName pr target) = some pr ∧
    createMergeForwardBranchName
        ((extractPRFromMergeForward (createMergeForwardBranchName pr target)).getD "")
        (extractTargetFromMergeForward (createMergeForwardBranchName pr target)) =
      createMergeForwardBranchName pr target := by
  refine ⟨extractTarget_create pr target h1 h2, extractPR_create pr target h1 h2, ?_⟩
  rw [extractTarget_create pr target h1 h2, extractPR_create pr target h1 h2]
  rfl

/-- Witness for C7 at PR number `12345` and target `release-5.8.0` (a name
with dots, which the codec keeps verbatim). -/
theorem codec_round_trip_witness :
    ("12345" : String) ≠ "" ∧ (∀ c ∈ ("12345" : String).data, c.isDigit = true) ∧
    extractTargetFromMergeForward (createMergeForwardBranchName "12345" "release-5.8.0") =
      "release-5.8.0" ∧
    extractPRFromMergeForward (createMergeForwardBranchName "12345" "release-5.8.0") =
      some "12345" :=
  ⟨by decide, by decide,
    (codec_round_trip "12345" "release-5.8.0" (by decide) (by decide)).1,
    (codec_round_trip "12345" "release-5.8.0" (by decide) (by decide)).2.1⟩

/-- **C8** — counterexample.  The claim says every decode operation returns a
null/empty result on a name that is not in merge-bot format.
`extractTargetFromMergeForward` instead returns its input unchanged: on the
foreign name `some-feature-branch` the result is the (nonempty) input
itself, not null and not empty. -/
theorem decode_garbage_returns_input :
    extractTargetFromMergeForward "some-feature-branch" = "some-feature-branch" ∧
    ("some-feature-branch" : String) ≠ "" := by
  refine ⟨by decide, by decide⟩

/-- **C8** — amended.  Decoding is total and never throws; the two PR-number
decoders return null (`none`) on malformed or foreign names, while
`extractTargetFromMergeForward` either strips a well-formed merge-forward
header or returns its input unchanged (rather than a null/empty result). -/
theorem decode_total_never_throws (name : String) :
    (jsStartsWith name mbBranchForwardMark = false →
      extractPRFromMergeForward name = none) ∧
    (jsStartsWith name mbBranchFailedMark = false →
      extractPRFromMergeConflicts name = none) ∧
    (firstPrMatch name.data = none →
      extractPRFromMergeForward name = none ∧ extractPRFromMergeConflicts name = none) ∧
    (extractTargetFromMergeForward name = name ∨
      ∃ pr rest : String, pr ≠ "" ∧ (∀ c ∈ pr.data, c.isDigit = true) ∧
        name = createMergeForwardBranchName pr rest ∧
        extractTargetFromMergeForward name = rest) := by
  refine ⟨?_, ?_, ?_, extractTarget_total name⟩
  · intro h
    unfold extractPRFromMergeForward
    rw [h]
    rfl
  · intro h
    unfold extractPRFromMergeConflicts
    rw [h]
    rfl
  · intro h
    constructor
    · unfold extractPRFromMergeForward extractPRNumber
      rw [h]
      split <;> rfl
    · unfold extractPRFromMergeConflicts extractPRNumber
      rw [h]
      split <;> rfl

/-- Witness for the amended C8 on the foreign name `some-feature-branch`:
both PR decoders return null and the target decoder returns the input. -/
theorem decode_total_never_throws_witness :
    extractPRFromMergeForward "some-feature-branch" = none ∧
    extractPRFromMergeConflicts "some-feature-branch" = none := by
  have h := decode_total_never_throws "some-feature-branch"
  exact ⟨h.1 (by decide), h.2.1 (by decide)⟩

/-- **C3** — resumption skips completed hops.  When the merged PR's base
branch is a merge-forward ref whose encoded target branch occurs in
`config.mergeTargets` (first occurrence after the prefix `pre`), the
Executor's target list is exactly the branches strictly after that target,
and every branch it merges into belongs to that strict suffix — the
completed upstream hops are re-used, not restarted. -/
theorem resumption_skips_completed_hops (ctx : AMCtx) (envf : String → HopEnv)
    (st : AMState) (mergeTargets pre post : List String) (tgt : String)
    (hfwd : isMergeForwardPR ctx.baseBranch = true)
    (hdec : extractTargetFromMergeForward ctx.baseBranch = tgt)
    (hsplit : mergeTargets = pre ++ tgt :: post)
    (hnot : tgt ∉ pre) :
    runMergesTargets mergeTargets ctx.baseBranch = post ∧
    ∀ b ∈ (runMerges ctx envf st mergeTargets).mergedBranches, b ∈ post := by
  have ht : runMergesTargets mergeTargets ctx.baseBranch = post := by
    unfold runMergesTargets
    rw [if_pos hfwd, hdec, hsplit]
    exact getRemaining_after pre post tgt hnot
  refine ⟨ht, fun b hb => ?_⟩
  unfold runMerges at hb
  rw [ht] at hb
  exact executeMerges_merged_sub ctx envf st post b hb

/-- Witness for C3: resuming from `merge-forward-pr-70412-release-5.8.0` on
the chain `[release-5.7.2, release-5.8.0, main]` leaves only `main`. -/
theorem resumption_skips_completed_hops_witness :
    isMergeForwardPR "merge-forward-pr-70412-release-5.8.0" = true ∧
    extractTargetFromMergeForward "merge-forward-pr-70412-release-5.8.0" =
      "release-5.8.0" ∧
    runMergesTargets ["release-5.7.2", "release-5.8.0", "main"]
      "merge-forward-pr-70412-release-5.8.0" = ["main"] :=
  ⟨by decide, by decide,
    (resumption_skips_completed_hops
      { prNumber := "70413", prBranch := "fix", prAuthor := "alice",
        baseBranch := "merge-forward-pr-70412-release-5.8.0",
        prCommitSha := "abc", terminalBranch := "main", repoUrl := "r", actionUrl := "a" }
      (fun _ =>
        { mergeResult := Except.ok "ok", conflictsOut := "", newIssueNumber := 1,
          issueUrl := "u", newHeadSha := "h" })
      { lastSuccessfulMergeRef := "abc", lastSuccessfulBranch := "x",
        conflictBranch := none, issueUrl := none }
      ["release-5.7.2", "release-5.8.0", "main"] ["release-5.7.2"] ["main"]
      "release-5.8.0" (by decide) (by decide) (by decide) (by decide)).1⟩

/-- **C10** — the implicit resumption edge case.  When the target branch
decoded from a merge-forward base ref does not occur in
`config.mergeTargets`, `getRemainingMergeTargets` returns the entire
`mergeTargets` list, so a resuming invocation silently restarts the whole
chain from the first hop. -/
theorem unknown_resume_target_restarts_chain (mergeTargets : List String)
    (baseBranch tgt : String)
    (hfwd : isMergeForwardPR baseBranch = true)
    (hdec : extractTargetFromMergeForward baseBranch = tgt)
    (hnot : tgt ∉ mergeTargets) :
    runMergesTargets mergeTargets baseBranch = mergeTargets := by
  unfold runMergesTargets
  rw [if_pos hfwd, hdec]
  unfold getRemainingMergeTargets
  rw [jsIndexOf_not_mem mergeTargets tgt hnot]

/-- Witness for C10: the decoded target `release-9.9` is not a configured
merge target, so the whole chain is returned. -/
theorem unknown_resume_target_restarts_chain_witness :
    isMergeForwardPR "merge-forward-pr-12-release-9.9" = true ∧
    extractTargetFromMergeForward "merge-forward-pr-12-release-9.9" = "release-9.9" ∧
    runMergesTargets ["release-5.8.0", "main"] "merge-forward-pr-12-release-9.9" =
      ["release-5.8.0", "main"] :=
  ⟨by decide, by decide,
    unknown_resume_target_restarts_chain ["release-5.8.0", "main"]
      "merge-forward-pr-12-release-9.9" "release-9.9" (by decide) (by decide) (by decide)⟩

/-- **C4** — replay is idempotent and merges are never silent fast-forwards.
Every `git merge` the merge loop issues carries the default
`--no-commit --no-ff` options; whenever the merge output contains
`Already up to date.`, the hop creates no commit, leaves
`lastSuccessfulMergeRef` and `lastSuccessfulBranch` (the whole mutable
state) unchanged and still returns `true`; and after such a hop the loop
continues to the next target. -/
theorem replay_idempotent_up_to_date (ctx : AMCtx) (envf : String → HopEnv)
    (st0 : AMState) (targets : List String) :
    (∀ r o, AMEffect.gitMerge r o ∈ (executeMerges ctx envf st0 targets).effects →
      o = mergeDefaultOptions) ∧
    (∀ (st : AMState) (env : HopEnv) (branch out : String),
      env.mergeResult = Except.ok out → includesStr out UP_TO_DATE = true →
      (mergeHop ctx st env branch mergeDefaultOptions).1 = st ∧
      (mergeHop ctx st env branch mergeDefaultOptions).2.1 = true ∧
      ∀ msg, AMEffect.gitCommit msg ∉ (mergeHop ctx st env branch mergeDefaultOptions).2.2) ∧
    (∀ (st : AMState) (b1 b2 : String) (rest : List String) (out : String),
      (envf b1).mergeResult = Except.ok out → includesStr out UP_TO_DATE = true →
      AMEffect.checkout b2 ∈ (executeMerges ctx envf st (b1 :: b2 :: rest)).effects) :=
  ⟨fun r o h => executeMerges_gitMerge_opts ctx envf st0 targets r o h,
   fun st env branch out h1 h2 => mergeHop_up_to_date ctx st env branch mergeDefaultOptions out h1 h2,
   fun st b1 b2 rest out h1 h2 => executeMerges_continues ctx envf st b1 b2 rest out h1 h2⟩

/-- The fixtures used by the C4 witness: a run in which every hop reports
`Already up to date.`. -/
def utdEnv : HopEnv :=
  { mergeResult := Except.ok "Already up to date."
    conflictsOut := ""
    newIssueNumber := 1
    issueUrl := "u"
    newHeadSha := "h" }

/-- A concrete executor context shared by the C4 witness. -/
def witnessCtx : AMCtx :=
  { prNumber := "50"
    prBranch := "feat"
    prAuthor := "alice"
    baseBranch := "release-5.7.2"
    prCommitSha := "abc"
    terminalBranch := "main"
    repoUrl := "r"
    actionUrl := "a" }

/-- A concrete executor state shared by the C4 witness. -/
def witnessState : AMState :=
  { lastSuccessfulMergeRef := "abc"
    lastSuccessfulBranch := "release-5.7.2"
    conflictBranch := none
    issueUrl := none }

/-- Witness for C4: a first hop that is already up to date keeps the state,
returns `true` and the loop still checks the second target out. -/
theorem replay_idempotent_up_to_date_witness :
    ((fun _ => utdEnv : String → HopEnv) "release-5.8.0").mergeResult =
      Except.ok "Already up to date." ∧
    includesStr "Already up to date." UP_TO_DATE = true ∧
    (mergeHop witnessCtx witnessState utdEnv "release-5.8.0" mergeDefaultOptions).1 =
      witnessState ∧
    AMEffect.checkout "main" ∈
      (executeMerges witnessCtx (fun _ => utdEnv) witnessState
        ["release-5.8.0", "main"]).effects :=
  ⟨rfl, by decide,
    ((replay_idempotent_up_to_date witnessCtx (fun _ => utdEnv) witnessState
        ["release-5.8.0", "main"]).2.1
      witnessState utdEnv "release-5.8.0" "Already up to date." rfl (by decide)).1,
    (replay_idempotent_up_to_date witnessCtx (fun _ => utdEnv) witnessState
        ["release-5.8.0", "main"]).2.2
      witnessState "release-5.8.0" "main" [] "Already up to date." rfl (by decide)⟩

/-- The failing input for C5: the second hop's `git merge` throws for a
reason that leaves no conflicted files (`git diff --name-only
--diff-filter=U` prints nothing) — e.g. a network failure. -/
def nonConflictFailEnv : HopEnv :=
  { mergeResult := Except.error "fatal: unable to access remote"
    conflictsOut := ""
    newIssueNumber := 1
    issueUrl := "u"
    newHeadSha := "h" }

/-- A hop whose merge succeeds normally (used before the failing hop). -/
def okEnv : HopEnv :=
  { mergeResult := Except.ok "Merge made by the ort strategy."
    conflictsOut := ""
    newIssueNumber := 1
    issueUrl := "u"
    newHeadSha := "sha2" }

/-- The per-hop environment of the C5 run: hop 1 merges cleanly, hop 2
(`release-5.9.0`) fails without conflicts, hop 3 (`main`) is never
reached. -/
def c5Envf : String → HopEnv :=
  fun b => if b == "release-5.9.0" then nonConflictFailEnv else okEnv

/-- The C5 run: three targets, non-conflict failure at the second. -/
def c5Result : ExecResult :=
  executeMerges witnessCtx c5Envf witnessState ["release-5.8.0", "release-5.9.0", "main"]

/-- Does an executor effect create a tracking issue? -/
def isCreateIssueEff : AMEffect → Bool
  | AMEffect.createIssue _ => true
  | _ => false

/-- Does an executor effect create a branch whose name carries the
merge-conflicts marker (a quarantine branch)? -/
def createsQuarantineBranch : AMEffect → Bool
  | AMEffect.createBranch n _ => jsStartsWith n mbBranchFailedMark
  | _ => false

/-- **C5** — the code swallows non-conflict merge failures.  At the failing
input (`git merge` throws with no conflicted files) the Executor does stop —
no quarantine branch, no tracking issue, no further hop — but contrary to
the claim (and to §7 of the specification) it surfaces no error: `merge`
returns `false` exactly as for a handled stop, no conflict is recorded, no
notice is produced, and because nothing propagates, the top-level run still
sets the `status` output to `success` instead of reporting failure. -/
theorem nonconflict_failure_swallowed :
    c5Result.allMergesPassed = false ∧
    c5Result.state.conflictBranch = none ∧
    c5Result.effects.all (fun e => !isCreateIssueEff e) = true ∧
    c5Result.effects.all (fun e => !createsQuarantineBranch e) = true ∧
    AMEffect.checkout "main" ∉ c5Result.effects ∧
    c5Result.statusMessage = none ∧
    (mergeBotRunStatus "a" (Except.ok c5Result.statusMessage)).1 = "success" := by
  refine ⟨by decide, by decide, by decide, by decide, by decide, by decide, by decide⟩

/-- The repository state of the C2 failing input, mirroring the scenario of
the repository's own test `real-git-test.js` ("branch-here remains ancestor
of release branch after advancement"): commit 0 is the base,
commit 1 is a direct PR on `release-5.8.0`, commit 2 is the PR commit on
`merge-forward-pr-70168-release-5.8.0` (branched from the base), and commit
3 is the `updateTargetBranch` merge commit on `release-5.8.0` (parents 1 and
2).  `branch-here-release-5.8.0` still sits at the base. -/
def c2Repo : GitRepo :=
  { parents := [(0, []), (1, [0]), (2, [0]), (3, [1, 2])]
    refs := [("branch-here-release-5.8.0", 0), ("release-5.8.0", 3),
             ("origin/merge-forward-pr-70168-release-5.8.0", 2)]
    nextId := 4
    current := "main" }

/-- The git commands the Maintainer runs at the C2 failing input. -/
def c2Cmds : List GitCmd :=
  advanceBranchHereCmds ["release-5.8.0", "main"] "main"
    "merge-forward-pr-70168-release-5.8.0"

/-- The repository after `advanceBranchHereFromMergeForward` runs. -/
def c2Repo' : GitRepo := runGitCmds c2Repo c2Cmds

/-- Does a maintainer git command merge with a message mentioning the given
change id? -/
def mergeMsgMentions (changeId : String) : GitCmd → Bool
  | GitCmd.mergeNoFF _ msg => includesStr msg changeId
  | _ => false

/-- **C2** — the Maintainer breaks the known-good-pointer ancestry invariant.
Before the fold, `branch-here-release-5.8.0` is an ancestor of
`release-5.8.0`.  `advanceBranchHereFromMergeForward` merges the completed
merge-forward ref into branch-here with `--no-ff` — but its merge commit
message is a fixed string that records no change id (it does not mention
`70168`), and no command of the fold ever merges the known-good pointer back
into `release-5.8.0` (the branch's ref is untouched).  Afterwards the
pointer is no longer an ancestor of the branch: the invariant the claim
states (and the repository's own real-git test asserts) is violated. -/
theorem advance_breaks_ancestor_invariant :
    isAncestorRef c2Repo "branch-here-release-5.8.0" "release-5.8.0" = true ∧
    GitCmd.mergeNoFF "origin/merge-forward-pr-70168-release-5.8.0" advanceMessage ∈
      c2Cmds ∧
    c2Cmds.all (fun cmd => !mergeMsgMentions "70168" cmd) = true ∧
    (∀ cmd ∈ c2Cmds, cmd ≠ GitCmd.checkout "release-5.8.0") ∧
    lookupRef c2Repo' "release-5.8.0" = lookupRef c2Repo "release-5.8.0" ∧
    isAncestorRef c2Repo' "branch-here-release-5.8.0" "release-5.8.0" = false := by
  refine ⟨by decide, by decide, by decide, by decide, by decide, by decide⟩

/-- **C9** — counterexample.  The claim says the `status` output is set to
`failure` when an unexpected error propagates to the top of the run; the
top-level `catch` in merge-bot.js actually sets it to `error`. -/
theorem crash_status_is_error_not_failure :
    (mergeBotRunStatus "https://x/a" (Except.error "boom")).1 = "error" ∧
    (mergeBotRunStatus "https://x/a" (Except.error "boom")).1 ≠ "failure" := by
  refine ⟨by decide, by decide⟩

/-- **C9** — amended.  A run in which no exception propagates to the top —
including one whose merges all completed and one in which a conflict was
quarantined with an issue filed (any `executeMerges` outcome) — sets the
`status` output to `success`; a run in which an exception propagates sets it
to `error` (not `failure`). -/
theorem status_success_iff_no_crash (actionUrl : String)
    (outcome : Except String (Option String)) :
    ((∃ m, outcome = Except.ok m) ↔ (mergeBotRunStatus actionUrl outcome).1 = "success") ∧
    (∀ e, outcome = Except.error e → (mergeBotRunStatus actionUrl outcome).1 = "error") ∧
    (∀ (ctx : AMCtx) (envf : String → HopEnv) (st : AMState) (targets : List String),
      (mergeBotRunStatus actionUrl
        (Except.ok (executeMerges ctx envf st targets).statusMessage)).1 = "success") := by
  refine ⟨⟨?_, ?_⟩, ?_, ?_⟩
  · rintro ⟨m, rfl⟩
    rfl
  · intro h
    cases outcome with
    | ok m => exact ⟨m, rfl⟩
    | error e => exact absurd h (by simp [mergeBotRunStatus, runCatchStatus])
  · rintro e rfl
    rfl
  · intro ctx envf st targets
    rfl

/-- Witness for the amended C9: the C5 run (conflict-free stop) and a
quarantined-conflict run both report `success`; a crash reports `error`. -/
theorem status_success_iff_no_crash_witness :
    (mergeBotRunStatus "a" (Except.ok c5Result.statusMessage)).1 = "success" ∧
    (mergeBotRunStatus "a" (Except.error "boom")).1 = "error" :=
  ⟨(status_success_iff_no_crash "a" (Except.ok c5Result.statusMessage)).1.mp
      ⟨c5Result.statusMessage, rfl⟩,
    (status_success_iff_no_crash "a" (Except.error "boom")).2.1 "boom" rfl⟩
